import Mathlib

/-!
Verification of the rota-scheduler core: a shallow embedding of the
data-preparation layer (backend/scheduler/data_preparation.py), the
constraint-builder rules (backend/scheduler/constraints.py), the solver
result extraction (backend/scheduler/solver.py), the solution validator
and persistence handshake (backend/scheduler/solution_parser.py) and the
generation task (backend/tasks/schedule_generation.py), together with
theorems settling the frozen claims about them.

Conventions: doctors and shifts are referred to by their snapshot
positions wherever the source goes through the doctor_index / shift_index
bijections; calendar dates are proleptic-Gregorian day ordinals, mirroring
datetime.date.toordinal; Django model rows are value structures carrying
the fields the claims mention.
-/

/-- Shift kind, from Shift.SHIFT_TYPE_CHOICES (schedules/models.py). The
string ordering of the source values satisfies day < night. -/
inductive ShiftType where
  | day
  | night
deriving DecidableEq

/-- Leave request status, from LeaveRequest.STATUS_CHOICES (requests/models.py). -/
inductive LeaveStatus where
  | pending
  | approved
  | rejected
  | cancelled
deriving DecidableEq

/-- Schedule lifecycle status, from Schedule.STATUS_CHOICES (schedules/models.py). -/
inductive ScheduleStatus where
  | draft
  | published
  | finalized
deriving DecidableEq

/-- Violation severity, from ConstraintViolation.SEVERITY_CHOICES. -/
inductive Severity where
  | error
  | warning
  | info
deriving DecidableEq

/-- The violation kinds the validator emits (solution_parser.py). -/
inductive ViolationType where
  | underCoverage
  | underMinShifts
  | overMaxShifts
  | tooManyConsecutiveShifts
  | insufficientRest
deriving DecidableEq

/-- A ConstraintViolation row projected to the fields the claims mention;
the doctor is recorded by snapshot position (none for shift-level records). -/
structure Violation where
  violationType : ViolationType
  severity : Severity
  doctor : Option Nat
deriving DecidableEq

/-- Errors raised by SchedulerData.__init__; both surface as ValueError in
the source (data_preparation.py:23 and the datetime.date constructor). -/
inductive SnapError where
  | noActiveConfiguration
  | dateValueError
deriving DecidableEq

/-- Gregorian leap-year test, as in the datetime module backing
datetime.date. -/
def isLeapYear (y : Nat) : Bool :=
  (y % 4 == 0 && !(y % 100 == 0)) || (y % 400 == 0)

/-- Days in month m of a year with the given leap bit. -/
def daysInMonthAux (leap : Bool) (m : Nat) : Nat :=
  if m = 2 then (if leap then 29 else 28)
  else if m = 4 ∨ m = 6 ∨ m = 9 ∨ m = 11 then 30
  else 31

/-- Days in month m (1..12) of year y. -/
def daysInMonth (y m : Nat) : Nat := daysInMonthAux (isLeapYear y) m

/-- Days of the year strictly before month m, given the leap bit. -/
def daysBeforeMonthAux (leap : Bool) : Nat → Nat
  | 0 => 0
  | m + 1 => if m = 0 then 0 else daysBeforeMonthAux leap m + daysInMonthAux leap m

/-- Number of leap years among years 1..n. -/
def leapDaysUpTo (n : Nat) : Nat := n / 4 + n / 400 - n / 100

/-- Days of the proleptic Gregorian calendar before January 1 of year y. -/
def daysBeforeYear (y : Nat) : Nat := 365 * (y - 1) + leapDaysUpTo (y - 1)

/-- datetime.date.toordinal for a valid calendar triple. -/
def toOrdinal (y m d : Nat) : Nat :=
  daysBeforeYear y + daysBeforeMonthAux (isLeapYear y) m + d

/-- The datetime.date constructor: validates month, day and the CPython
year range MINYEAR=1 .. MAXYEAR=9999, otherwise raises ValueError. -/
def dateNew (y m d : Nat) : Except SnapError Nat :=
  if 1 ≤ y ∧ y ≤ 9999 ∧ 1 ≤ m ∧ m ≤ 12 ∧ 1 ≤ d ∧ d ≤ daysInMonth y m
  then Except.ok (toOrdinal y m d)
  else Except.error SnapError.dateValueError

/-- first_day = date(year, month, 1) (data_preparation.py:52). -/
def monthFirst (y m : Nat) : Nat := toOrdinal y m 1

/-- last_day (data_preparation.py:53-56): first day of the next month minus
one day, rolling December over to January of the next year. -/
def monthLast (y m : Nat) : Nat :=
  (if m = 12 then toOrdinal (y + 1) 1 1 else toOrdinal y (m + 1) 1) - 1

/-- The day-expansion while-loop of _load_approved_leave: all days from a
to b inclusive. -/
def datesFromTo (a b : Nat) : List Nat :=
  if h : a ≤ b then a :: datesFromTo (a + 1) b else []
termination_by b + 1 - a
decreasing_by omega

/-- A Doctor row (doctors/models.py), projected to the loader-relevant
fields; Meta ordering is (last_name, first_name). -/
structure DoctorRow where
  id : Nat
  lastName : String
  firstName : String
  active : Bool
  specialties : List Nat
deriving DecidableEq

/-- A Shift row (schedules/models.py). min_doctors is a non-nullable
IntegerField with default 2 and MinValueValidator(1). -/
structure ShiftRow where
  id : Nat
  date : Nat
  shiftType : ShiftType
  minDoctors : Nat
deriving DecidableEq

/-- A LeaveRequest row (requests/models.py), loader-relevant fields. -/
structure LeaveRow where
  doctorId : Nat
  startDate : Nat
  endDate : Nat
  status : LeaveStatus
deriving DecidableEq

/-- A ScheduleConfiguration row (schedules/models.py), scalar parameters. -/
structure ConfigRow where
  minShiftsPerDoctor : Nat
  maxShiftsPerDoctor : Nat
  maxConsecutiveShifts : Nat
  minRestHoursBetweenShifts : Nat
  maxConsecutiveDaysOff : Nat
  avoidSingleDayOff : Bool
  defaultMinDoctorsPerShift : Nat
  isActive : Bool
deriving DecidableEq

/-- The relational state the loader reads from. -/
structure Persist where
  doctors : List DoctorRow
  shifts : List ShiftRow
  leaves : List LeaveRow
  configs : List ConfigRow
deriving DecidableEq

/-- The in-memory snapshot built by SchedulerData: configuration, ordered
doctor and shift vectors and the leave-date map (doctor id to dates). -/
structure Snapshot where
  configuration : ConfigRow
  doctors : List DoctorRow
  shifts : List ShiftRow
  leaveDates : Nat → List Nat

/-- _load_approved_leave (data_preparation.py:47-72): approved rows whose
interval overlaps [firstDay, lastDay], each expanded day by day after
clipping to that interval; the defaultdict keyed by doctor id is modelled
as a function. -/
def loadApprovedLeave (firstDay lastDay : Nat) (leaves : List LeaveRow) : Nat → List Nat :=
  fun did =>
    (leaves.filter (fun r =>
        decide (r.status = LeaveStatus.approved ∧ r.startDate ≤ lastDay ∧
          firstDay ≤ r.endDate ∧ r.doctorId = did))).flatMap
      (fun r => datesFromTo (max r.startDate firstDay) (min r.endDate lastDay))

/-- Doctor Meta ordering (last_name, first_name), lexicographically. -/
def nameLe (a b : DoctorRow) : Prop :=
  a.lastName < b.lastName ∨ (a.lastName = b.lastName ∧ a.firstName ≤ b.firstName)

instance (a b : DoctorRow) : Decidable (nameLe a b) := by
  unfold nameLe
  infer_instance

/-- Numeric rank of the shift_type strings: day sorts before night. -/
def shiftTypeOrd : ShiftType → Nat
  | ShiftType.day => 0
  | ShiftType.night => 1

/-- Shift ordering (date, shift_type), from order_by('date', 'shift_type'). -/
def shiftLe (a b : ShiftRow) : Prop :=
  a.date < b.date ∨ (a.date = b.date ∧ shiftTypeOrd a.shiftType ≤ shiftTypeOrd b.shiftType)

instance (a b : ShiftRow) : Decidable (shiftLe a b) := by
  unfold shiftLe
  infer_instance

/-- Insertion step of the canonical name sort. -/
def insertByName (d : DoctorRow) : List DoctorRow → List DoctorRow
  | [] => [d]
  | e :: t => if nameLe d e then d :: e :: t else e :: insertByName d t

/-- Canonical resolution of the doctors query ordering. -/
def sortByName : List DoctorRow → List DoctorRow
  | [] => []
  | d :: t => insertByName d (sortByName t)

/-- Insertion step of the canonical shift sort. -/
def insertShift (s : ShiftRow) : List ShiftRow → List ShiftRow
  | [] => [s]
  | e :: t => if shiftLe s e then s :: e :: t else e :: insertShift s t

/-- Canonical resolution of the shifts query ordering. -/
def sortShifts : List ShiftRow → List ShiftRow
  | [] => []
  | s :: t => insertShift s (sortShifts t)

/-- The date__year / date__month filter of the shifts query, expressed on
ordinals as membership in the month interval. -/
def shiftInMonth (y m : Nat) (s : ShiftRow) : Bool :=
  decide (monthFirst y m ≤ s.date ∧ s.date ≤ monthLast y m)

/-- SchedulerData.__init__ (data_preparation.py:17-45) as a fallible
snapshot builder: the active-configuration lookup (raising when none and no
explicit configuration is passed), the doctors/shifts/leave loads, and the
two datetime.date constructions of _load_approved_leave, in source order.
ORM tie-breaking is resolved canonically by the insertion sorts; the
relations doctorsQueryRes / shiftsQueryRes below describe every order the
ORM may actually return. -/
def snapshotE (month year : Nat) (override : Option ConfigRow) (p : Persist) :
    Except SnapError Snapshot :=
  match override.orElse (fun _ => p.configs.find? (fun c => c.isActive)) with
  | none => Except.error SnapError.noActiveConfiguration
  | some cfg =>
    let doctors := sortByName (p.doctors.filter (fun d => d.active))
    let shifts := sortShifts (p.shifts.filter (shiftInMonth year month))
    match dateNew year month 1 with
    | Except.error e => Except.error e
    | Except.ok firstDay =>
      match (if month = 12 then dateNew (year + 1) 1 1 else dateNew year (month + 1) 1) with
      | Except.error e => Except.error e
      | Except.ok nextFirst =>
        Except.ok
          { configuration := cfg
            doctors := doctors
            shifts := shifts
            leaveDates := loadApprovedLeave firstDay (nextFirst - 1) p.leaves }

/-- ScheduleSolution (solver.py:13-26); assignments are (doctor position,
shift position) pairs. -/
structure ScheduleSolution where
  status : String
  assignments : List (Nat × Nat)
  solverTime : Nat
  objectiveValue : Option Int
deriving DecidableEq

/-- is_feasible (solver.py:23-26). -/
def ScheduleSolution.isFeasible (s : ScheduleSolution) : Bool :=
  s.status == "OPTIMAL" || s.status == "FEASIBLE"

/-- schedule.assignments.filter(shift=shift).count() (solution_parser.py:140-141),
with shifts referred to by position through the shift_index bijection. -/
def countAssignmentsForShift (asg : List (Nat × Nat)) (s : Nat) : Nat :=
  (asg.filter (fun pr => decide (pr.2 = s))).length

/-- schedule.assignments.filter(doctor=doctor).count() (solution_parser.py:158). -/
def countAssignmentsForDoctor (asg : List (Nat × Nat)) (d : Nat) : Nat :=
  (asg.filter (fun pr => decide (pr.1 = d))).length

/-- shift.min_doctors or config.default_min_doctors_per_shift on the builder
side (constraints.py:35); the Python or falls back exactly on the falsy
value 0 of the non-nullable integer field. -/
def coverageBoundB (sh : ShiftRow) (cfg : ConfigRow) : Nat :=
  if sh.minDoctors = 0 then cfg.defaultMinDoctorsPerShift else sh.minDoctors

/-- The same expression on the validator side (solution_parser.py:142). -/
def coverageBoundV (sh : ShiftRow) (cfg : ConfigRow) : Nat :=
  if sh.minDoctors = 0 then cfg.defaultMinDoctorsPerShift else sh.minDoctors

/-- _check_coverage_violations (solution_parser.py:137-151). -/
def checkCoverageViolations (snap : Snapshot) (asg : List (Nat × Nat)) : List Violation :=
  (List.range snap.shifts.length).filterMap fun s =>
    match snap.shifts.get? s with
    | some sh =>
      if countAssignmentsForShift asg s < coverageBoundV sh snap.configuration
      then some { violationType := ViolationType.underCoverage
                  severity := Severity.error
                  doctor := none }
      else none
    | none => none

/-- _check_workload_violations (solution_parser.py:153-176). -/
def checkWorkloadViolations (snap : Snapshot) (asg : List (Nat × Nat)) : List Violation :=
  (List.range snap.doctors.length).flatMap fun d =>
    (if countAssignmentsForDoctor asg d < snap.configuration.minShiftsPerDoctor
     then [{ violationType := ViolationType.underMinShifts
             severity := Severity.warning
             doctor := some d }]
     else []) ++
    (if snap.configuration.maxShiftsPerDoctor < countAssignmentsForDoctor asg d
     then [{ violationType := ViolationType.overMaxShifts
             severity := Severity.error
             doctor := some d }]
     else [])

/-- The assigned shift positions of a doctor in ascending order
(solution_parser.py:184-185): the rows ordered by (shift__date,
shift__shift_type) map through shift_index to the ascending positions of
the (date, shift_type)-sorted shift vector of the snapshot. -/
def doctorShiftIndices (asg : List (Nat × Nat)) (numShifts d : Nat) : List Nat :=
  (List.range numShifts).filter (fun s => asg.contains (d, s))

/-- The scan of solution_parser.py:191-206: a counter incremented when the
next position equals the previous plus one and reset otherwise, returning
true (and stopping, as the break does) the first time it exceeds K. -/
def consecWalk (K prev count : Nat) : List Nat → Bool
  | [] => false
  | i :: rest =>
    if i = prev + 1 then
      (if K < count + 1 then true else consecWalk K i (count + 1) rest)
    else consecWalk K i 1 rest

/-- Whether the walk emits for a given position list; lists of fewer than
two positions are skipped (solution_parser.py:188-189). -/
def emitsConsec (K : Nat) : List Nat → Bool
  | [] => false
  | [_] => false
  | i :: rest => consecWalk K i 1 rest

/-- _check_consecutive_shift_violations (solution_parser.py:178-206): at
most one violation per doctor, appended when the counter first exceeds the
maximum. -/
def checkConsecutiveShiftViolations (snap : Snapshot) (asg : List (Nat × Nat)) : List Violation :=
  (List.range snap.doctors.length).flatMap fun d =>
    if emitsConsec snap.configuration.maxConsecutiveShifts
        (doctorShiftIndices asg snap.shifts.length d)
    then [{ violationType := ViolationType.tooManyConsecutiveShifts
            severity := Severity.error
            doctor := some d }]
    else []

/-- _check_rest_period_violations (solution_parser.py:208-234): skipped when
min_rest_hours_between_shifts < 12; otherwise every adjacent pair of the
ordered assignments of a doctor is tested for a night-to-day transition within
one calendar day. -/
def checkRestPeriodViolations (snap : Snapshot) (asg : List (Nat × Nat)) : List Violation :=
  if snap.configuration.minRestHoursBetweenShifts < 12 then []
  else
    (List.range snap.doctors.length).flatMap fun d =>
      let l := doctorShiftIndices asg snap.shifts.length d
      (l.zip l.tail).filterMap fun pr =>
        match snap.shifts.get? pr.1, snap.shifts.get? pr.2 with
        | some cur, some nxt =>
          if cur.shiftType = ShiftType.night ∧ nxt.shiftType = ShiftType.day ∧
              (nxt.date : Int) - (cur.date : Int) ≤ 1
          then some { violationType := ViolationType.insufficientRest
                      severity := Severity.error
                      doctor := some d }
          else none
        | _, _ => none

/-- _detect_violations (solution_parser.py:116-135): the four re-checked
rules, in source order. -/
def detectViolations (snap : Snapshot) (asg : List (Nat × Nat)) : List Violation :=
  checkCoverageViolations snap asg ++ checkWorkloadViolations snap asg ++
    checkConsecutiveShiftViolations snap asg ++ checkRestPeriodViolations snap asg

/-- add_leave_constraints (constraints.py:41-46) with is_doctor_on_leave
(data_preparation.py:74-76): the (doctor, shift) position pairs whose
decision variable is pinned to zero. -/
def leaveConstraintPairs (snap : Snapshot) : List (Nat × Nat) :=
  (List.range snap.doctors.length).flatMap fun d =>
    (List.range snap.shifts.length).filterMap fun s =>
      match snap.doctors.get? d, snap.shifts.get? s with
      | some doc, some sh =>
        if (snap.leaveDates doc.id).contains sh.date then some (d, s) else none
      | _, _ => none

/-- Breach of a coverage constraint (constraints.py:32-39) by an assignment
set: some shift has fewer assigned doctors than its bound. -/
def coverageBreach (snap : Snapshot) (asg : List (Nat × Nat)) : Prop :=
  ∃ s sh, snap.shifts.get? s = some sh ∧
    ((List.range snap.doctors.length).filter (fun d => asg.contains (d, s))).length <
      coverageBoundB sh snap.configuration

/-- Breach of a workload constraint (constraints.py:48-57). -/
def workloadBreach (snap : Snapshot) (asg : List (Nat × Nat)) : Prop :=
  ∃ d, d < snap.doctors.length ∧
    (((List.range snap.shifts.length).filter (fun s => asg.contains (d, s))).length <
        snap.configuration.minShiftsPerDoctor ∨
      snap.configuration.maxShiftsPerDoctor <
        ((List.range snap.shifts.length).filter (fun s => asg.contains (d, s))).length)

/-- Breach of a consecutive-shift window constraint (constraints.py:59-69):
some window of max_consecutive_shifts + 1 contiguous positions is fully
assigned to one doctor. -/
def consecutiveBreach (snap : Snapshot) (asg : List (Nat × Nat)) : Prop :=
  ∃ d i, d < snap.doctors.length ∧
    i + snap.configuration.maxConsecutiveShifts < snap.shifts.length ∧
    ∀ j, j ≤ snap.configuration.maxConsecutiveShifts → asg.contains (d, i + j) = true

/-- Breach of a rest-period constraint (constraints.py:71-90): a doctor
holds two position-adjacent shifts forming a night-to-day transition within
one calendar day, while the rule is active. -/
def restBreach (snap : Snapshot) (asg : List (Nat × Nat)) : Prop :=
  12 ≤ snap.configuration.minRestHoursBetweenShifts ∧
  ∃ d s cur nxt, d < snap.doctors.length ∧
    snap.shifts.get? s = some cur ∧ snap.shifts.get? (s + 1) = some nxt ∧
    cur.shiftType = ShiftType.night ∧ nxt.shiftType = ShiftType.day ∧
    (nxt.date : Int) - (cur.date : Int) ≤ 1 ∧
    asg.contains (d, s) = true ∧ asg.contains (d, s + 1) = true

/-- Persisted fields of the target schedule row (schedules/models.py). -/
structure ScheduleRec where
  status : ScheduleStatus
  solverStatus : String
  solverTimeSeconds : Option Nat
  objectiveValue : Option Int
  generatedAt : Option Nat
  notes : String
deriving DecidableEq

/-- Persisted state for the target (month, year): the schedule row, its
ShiftAssignment rows (as snapshot position pairs) and its
ConstraintViolation rows. -/
structure Db where
  schedule : Option ScheduleRec
  assignments : List (Nat × Nat)
  violations : List Violation
deriving DecidableEq

/-- get_or_create defaults (solution_parser.py:82-89). -/
def newDraftSchedule : ScheduleRec :=
  { status := ScheduleStatus.draft
    solverStatus := ""
    solverTimeSeconds := none
    objectiveValue := none
    generatedAt := none
    notes := "" }

/-- The note written on the infeasible path (solution_parser.py:44). -/
def infeasibleNote : String := "Schedule generation failed - no feasible solution found"

/-- save_to_database (solution_parser.py:22-78): get-or-create the schedule
row; on an infeasible solution record only status, time and the note; on a
feasible one replace the assignments, re-derive violations against them,
replace the stored violations only when at least one was detected
(solution_parser.py:62-64 and 236-253), and update the metadata. -/
def saveToDatabase (sol : ScheduleSolution) (snap : Snapshot) (now : Nat) (db : Db) : Db :=
  let sched := db.schedule.getD newDraftSchedule
  if sol.isFeasible then
    let vs := detectViolations snap sol.assignments
    { schedule := some { sched with
        solverStatus := sol.status
        solverTimeSeconds := some sol.solverTime
        objectiveValue := sol.objectiveValue
        generatedAt := some now }
      assignments := sol.assignments
      violations := if vs = [] then db.violations else vs }
  else
    { db with
      schedule := some { sched with
        solverStatus := sol.status
        solverTimeSeconds := some sol.solverTime
        notes := infeasibleNote } }

/-- Result variants of the dict returned by the generation task. -/
inductive TaskOutcome where
  | finalizedError
  | loadError (e : SnapError)
  | completed (feasible : Bool)
deriving DecidableEq

/-- The notes string written by the generic exception handler
(tasks/schedule_generation.py:121). -/
def snapErrorNote : SnapError → String
  | SnapError.noActiveConfiguration =>
      "Generation failed: No active schedule configuration found"
  | SnapError.dateValueError => "Generation failed: invalid month or year"

/-- generate_schedule_task (tasks/schedule_generation.py:17-130): load the
snapshot, abort with an error result when the existing schedule is
finalized, otherwise solve and save; an exception during loading is caught
by the handler, which stamps solver_status ERROR and a note on the existing
schedule row if there is one. -/
def generateScheduleTask (month year : Nat) (p : Persist)
    (solve : Snapshot → ScheduleSolution) (now : Nat) (db : Db) : TaskOutcome × Db :=
  match snapshotE month year none p with
  | Except.error e =>
    match db.schedule with
    | some r =>
      (TaskOutcome.loadError e,
        { db with schedule := some { r with solverStatus := "ERROR", notes := snapErrorNote e } })
    | none => (TaskOutcome.loadError e, db)
  | Except.ok snap =>
    if db.schedule.map (fun r => r.status) = some ScheduleStatus.finalized then
      (TaskOutcome.finalizedError, db)
    else
      let sol := solve snap
      (TaskOutcome.completed sol.isFeasible, saveToDatabase sol snap now db)

/-- _extract_assignments (solver.py:163-176): the variables dict iterates in
insertion order (doctor-major, shift-minor), appending the pairs whose
decision variable evaluates to 1. -/
def extractAssignments (numDoctors numShifts : Nat) (v : Nat → Nat → Bool) :
    List (Nat × Nat) :=
  (List.range numDoctors).flatMap fun d =>
    (List.range numShifts).filterMap fun s => if v d s then some (d, s) else none

/-- One step of the longest-run scan over a position list; the state is
(previous position, current run length, best run length). -/
def streakStep (st : Nat × Nat × Nat) (i : Nat) : Nat × Nat × Nat :=
  let cur := if i = st.1 + 1 then st.2.1 + 1 else 1
  (i, cur, max st.2.2 cur)

/-- The specification the claim gives for the consecutive rule: the length of the
longest run of position-adjacent entries, walking the list in order and
incrementing on +1 steps, resetting otherwise. -/
def maxStreak : List Nat → Nat
  | [] => 0
  | i :: rest => (rest.foldl streakStep (i, 1, 1)).2.2

/-- Doctor.objects.filter(active=True) under Meta ordering (last_name,
first_name): an admissible ORM result is any permutation of the active rows
that is sorted by the (non-unique) name key; ties are returned in an order
the database does not specify. -/
def doctorsQueryRes (p : Persist) (l : List DoctorRow) : Prop :=
  l.Perm (p.doctors.filter (fun d => d.active)) ∧ l.Pairwise nameLe

/-- Shift.objects.filter(month).order_by('date', 'shift_type') likewise. -/
def shiftsQueryRes (month year : Nat) (p : Persist) (l : List ShiftRow) : Prop :=
  l.Perm (p.shifts.filter (shiftInMonth year month)) ∧ l.Pairwise shiftLe

/-- The doctors and shifts vectors of a snapshot are admissible results of
the two ordered queries. -/
def snapshotQueries (month year : Nat) (p : Persist) (snap : Snapshot) : Prop :=
  doctorsQueryRes p snap.doctors ∧ shiftsQueryRes month year p snap.shifts

/-! ### Concrete instances used by the claim theorems -/

/-- A doctor on leave on the date of the only shift (claim C1). -/
def docL : DoctorRow :=
  { id := 7, lastName := "Ash", firstName := "Bo", active := true, specialties := [] }

def shiftL : ShiftRow := { id := 3, date := 100, shiftType := ShiftType.day, minDoctors := 1 }

def cfgL : ConfigRow :=
  { minShiftsPerDoctor := 1, maxShiftsPerDoctor := 1, maxConsecutiveShifts := 4,
    minRestHoursBetweenShifts := 0, maxConsecutiveDaysOff := 5, avoidSingleDayOff := true,
    defaultMinDoctorsPerShift := 2, isActive := true }

/-- Snapshot whose single doctor is on leave on the date of the single shift. -/
def snapLeaveBreach : Snapshot :=
  { configuration := cfgL, doctors := [docL], shifts := [shiftL], leaveDates := fun _ => [100] }

def shiftW1 : ShiftRow := { id := 4, date := 100, shiftType := ShiftType.day, minDoctors := 2 }

/-- Snapshot with an uncoverable shift for the C1 witness. -/
def snapCovBreach : Snapshot :=
  { configuration := cfgL, doctors := [docL], shifts := [shiftW1], leaveDates := fun _ => [] }

def shiftC2 : ShiftRow := { id := 9, date := 200, shiftType := ShiftType.night, minDoctors := 3 }

def cfgC2 : ConfigRow :=
  { minShiftsPerDoctor := 14, maxShiftsPerDoctor := 16, maxConsecutiveShifts := 4,
    minRestHoursBetweenShifts := 12, maxConsecutiveDaysOff := 5, avoidSingleDayOff := true,
    defaultMinDoctorsPerShift := 2, isActive := true }

def cfgC3 : ConfigRow :=
  { minShiftsPerDoctor := 1, maxShiftsPerDoctor := 10, maxConsecutiveShifts := 4,
    minRestHoursBetweenShifts := 12, maxConsecutiveDaysOff := 5, avoidSingleDayOff := false,
    defaultMinDoctorsPerShift := 1, isActive := true }

/-- Persistence state with an active configuration and nothing else (claim C3). -/
def pC3 : Persist := { doctors := [], shifts := [], leaves := [], configs := [cfgC3] }

def docC4 : DoctorRow :=
  { id := 1, lastName := "Cole", firstName := "Dee", active := true, specialties := [] }

def shiftC4 : ShiftRow := { id := 2, date := 50, shiftType := ShiftType.day, minDoctors := 1 }

def cfgC4 : ConfigRow :=
  { minShiftsPerDoctor := 1, maxShiftsPerDoctor := 1, maxConsecutiveShifts := 4,
    minRestHoursBetweenShifts := 0, maxConsecutiveDaysOff := 5, avoidSingleDayOff := false,
    defaultMinDoctorsPerShift := 1, isActive := true }

def snapC4 : Snapshot :=
  { configuration := cfgC4, doctors := [docC4], shifts := [shiftC4], leaveDates := fun _ => [] }

/-- A feasible solution whose re-validation emits no violations (claim C4). -/
def solC4 : ScheduleSolution :=
  { status := "OPTIMAL", assignments := [(0, 0)], solverTime := 3, objectiveValue := some 1 }

/-- A violation row persisted by an earlier run (claim C4). -/
def staleViol : Violation :=
  { violationType := ViolationType.underCoverage, severity := Severity.error, doctor := none }

def dbC4 : Db :=
  { schedule := some newDraftSchedule, assignments := [], violations := [staleViol] }

/-- A timed-out solver result (claim C5). -/
def solC5 : ScheduleSolution :=
  { status := "UNKNOWN", assignments := [(0, 0)], solverTime := 300, objectiveValue := none }

def snapC5 : Snapshot :=
  { configuration := cfgC4, doctors := [], shifts := [], leaveDates := fun _ => [] }

def dbC5 : Db := { schedule := none, assignments := [], violations := [] }

def cfgC6 : ConfigRow :=
  { minShiftsPerDoctor := 1, maxShiftsPerDoctor := 9, maxConsecutiveShifts := 1,
    minRestHoursBetweenShifts := 0, maxConsecutiveDaysOff := 5, avoidSingleDayOff := false,
    defaultMinDoctorsPerShift := 1, isActive := true }

def docC6 : DoctorRow :=
  { id := 11, lastName := "Eve", firstName := "Fay", active := true, specialties := [] }

def snapC6 : Snapshot :=
  { configuration := cfgC6
    doctors := [docC6]
    shifts := [{ id := 20, date := 10, shiftType := ShiftType.day, minDoctors := 1 },
               { id := 21, date := 10, shiftType := ShiftType.night, minDoctors := 1 },
               { id := 22, date := 11, shiftType := ShiftType.day, minDoctors := 1 }]
    leaveDates := fun _ => [] }

/-- An approved leave row covering all of December 2024 (claim C7). -/
def rowC7 : LeaveRow :=
  { doctorId := 5, startDate := 0, endDate := 10000000, status := LeaveStatus.approved }

def recFin : ScheduleRec :=
  { status := ScheduleStatus.finalized, solverStatus := "OPTIMAL", solverTimeSeconds := some 1,
    objectiveValue := some 4, generatedAt := some 1, notes := "" }

def dbFin : Db := { schedule := some recFin, assignments := [(0, 0)], violations := [] }

/-- Persistence state with no active configuration (claim C8). -/
def pNoCfg : Persist := { doctors := [], shifts := [], leaves := [], configs := [] }

def solveStub : Snapshot → ScheduleSolution :=
  fun _ => { status := "UNKNOWN", assignments := [], solverTime := 0, objectiveValue := none }

def pC8 : Persist := { doctors := [], shifts := [], leaves := [], configs := [cfgC3] }

def docD1 : DoctorRow :=
  { id := 1, lastName := "Smith", firstName := "Jo", active := true, specialties := [] }

def docD2 : DoctorRow :=
  { id := 2, lastName := "Smith", firstName := "Jo", active := true, specialties := [] }

/-- Two active doctors with identical ordering keys (claim C9). -/
def pDup : Persist := { doctors := [docD1, docD2], shifts := [], leaves := [], configs := [] }

def snapDup1 : Snapshot :=
  { configuration := cfgC3, doctors := [docD1, docD2], shifts := [], leaveDates := fun _ => [] }

def snapDup2 : Snapshot :=
  { configuration := cfgC3, doctors := [docD2, docD1], shifts := [], leaveDates := fun _ => [] }

def docE1 : DoctorRow :=
  { id := 3, lastName := "Adams", firstName := "Kit", active := true, specialties := [] }

def pDis : Persist := { doctors := [docE1], shifts := [], leaves := [], configs := [] }

def snapDis : Snapshot :=
  { configuration := cfgC3, doctors := [docE1], shifts := [], leaveDates := fun _ => [] }

def snapC10 : Snapshot :=
  { configuration := cfgC4, doctors := [docC4], shifts := [shiftC4], leaveDates := fun _ => [] }

/-! ### Calendar lemmas -/

theorem one_le_daysInMonthAux (b : Bool) (m : Nat) : 1 ≤ daysInMonthAux b m := by
  unfold daysInMonthAux
  split_ifs <;> omega

theorem one_le_daysInMonth (y m : Nat) : 1 ≤ daysInMonth y m :=
  one_le_daysInMonthAux (isLeapYear y) m

theorem daysBeforeMonthAux_succ (b : Bool) (m : Nat) (hm : 1 ≤ m) :
    daysBeforeMonthAux b (m + 1) = daysBeforeMonthAux b m + daysInMonthAux b m := by
  match m, hm with
  | k + 1, _ =>
    show daysBeforeMonthAux b (k + 1 + 1) = _
    rw [show daysBeforeMonthAux b (k + 1 + 1) =
      if k + 1 = 0 then 0
      else daysBeforeMonthAux b (k + 1) + daysInMonthAux b (k + 1) from rfl]
    simp

theorem daysBeforeMonthAux_one (b : Bool) : daysBeforeMonthAux b 1 = 0 := rfl

theorem daysBeforeMonthAux_year (b : Bool) :
    daysBeforeMonthAux b 12 + daysInMonthAux b 12 = if b then 366 else 365 := by
  revert b
  decide

theorem daysBeforeYear_succ (y : Nat) (hy : 1 ≤ y) :
    daysBeforeYear (y + 1) = daysBeforeYear y + (if isLeapYear y then 366 else 365) := by
  unfold daysBeforeYear leapDaysUpTo isLeapYear
  by_cases h4 : y % 4 = 0 <;> by_cases h100 : y % 100 = 0 <;> by_cases h400 : y % 400 = 0 <;>
    simp only [h4, h100, h400, beq_iff_eq, beq_eq_false_iff_ne, ne_eq, Bool.and_eq_true,
      Bool.or_eq_true, Bool.not_eq_true', decide_eq_true_eq] <;>
    simp_all <;> omega

theorem monthLast_succ (y m : Nat) (hy : 1 ≤ y) (hm1 : 1 ≤ m) (hm2 : m ≤ 12) :
    monthLast y m + 1 = monthFirst y m + daysInMonth y m := by
  unfold monthLast monthFirst toOrdinal daysInMonth
  by_cases h12 : m = 12
  · subst h12
    rw [if_pos rfl, daysBeforeYear_succ y hy, daysBeforeMonthAux_one]
    have hy12 := daysBeforeMonthAux_year (isLeapYear y)
    cases hb : isLeapYear y <;> simp [hb] at hy12 ⊢ <;> omega
  · rw [if_neg h12, daysBeforeMonthAux_succ (isLeapYear y) m hm1]
    omega

/-! ### datesFromTo lemmas -/

theorem datesFromTo_eq : ∀ (n a b : Nat), b + 1 - a = n → datesFromTo a b = List.range' a n := by
  intro n
  induction n with
  | zero =>
    intro a b h
    unfold datesFromTo
    have hab : ¬ a ≤ b := by omega
    simp [hab]
  | succ k ih =>
    intro a b h
    unfold datesFromTo
    have hab : a ≤ b := by omega
    rw [dif_pos hab, ih (a + 1) b (by omega)]
    rfl

theorem mem_datesFromTo {a b x : Nat} (h : x ∈ datesFromTo a b) : a ≤ x ∧ x ≤ b := by
  rw [datesFromTo_eq (b + 1 - a) a b rfl, List.mem_range'_1] at h
  omega

/-! ### Longest-run scan lemmas -/

theorem streak_best_mono : ∀ (l : List Nat) (st : Nat × Nat × Nat),
    st.2.2 ≤ (l.foldl streakStep st).2.2 := by
  intro l
  induction l with
  | nil => intro st; exact Nat.le_refl _
  | cons i t ih =>
    intro st
    have h1 : st.2.2 ≤ (streakStep st i).2.2 := Nat.le_max_left _ _
    exact le_trans h1 (ih (streakStep st i))

theorem runFold : ∀ (n i cur best : Nat),
    (List.range' (i + 1) n).foldl streakStep (i, cur, best) =
      (i + n, cur + n, if n = 0 then best else max best (cur + n)) := by
  intro n
  induction n with
  | zero => intro i cur best; simp
  | succ k ih =>
    intro i cur best
    have hcons : List.range' (i + 1) (k + 1) = (i + 1) :: List.range' (i + 2) k := rfl
    rw [hcons]
    simp only [List.foldl_cons]
    have hstep : streakStep (i, cur, best) (i + 1) = (i + 1, cur + 1, max best (cur + 1)) := by
      simp [streakStep]
    rw [hstep, ih (i + 1) (cur + 1) (max best (cur + 1))]
    simp only [Prod.mk.injEq]
    refine ⟨by omega, by omega, ?_⟩
    rcases Nat.eq_zero_or_pos k with hk | hk
    · subst hk
      simp
    · rw [if_neg (by omega), if_neg (by omega), max_assoc, max_eq_right (by omega : cur + 1 ≤ cur + 1 + k)]
      congr 1
      omega

theorem consecWalk_eq (K : Nat) (hK : 1 ≤ K) :
    ∀ (rest : List Nat) (prev cur best : Nat), cur ≤ K → best ≤ K →
      consecWalk K prev cur rest =
        decide (K < (rest.foldl streakStep (prev, cur, best)).2.2) := by
  intro rest
  induction rest with
  | nil =>
    intro prev cur best hc hb
    simp only [consecWalk, List.foldl_nil]
    symm
    rw [decide_eq_false_iff_not]
    simp only [not_lt]
    exact hb
  | cons i t ih =>
    intro prev cur best hc hb
    by_cases hadj : i = prev + 1
    · have hstep : streakStep (prev, cur, best) i = (i, cur + 1, max best (cur + 1)) := by
        simp [streakStep, hadj]
      by_cases hover : K < cur + 1
      · have h1 : consecWalk K prev cur (i :: t) = true := by
          simp [consecWalk, hadj, hover]
        rw [h1]
        have h2 : K < ((i :: t).foldl streakStep (prev, cur, best)).2.2 := by
          simp only [List.foldl_cons, hstep]
          have hm := streak_best_mono t (i, cur + 1, max best (cur + 1))
          simp only [] at hm
          have : cur + 1 ≤ (i, cur + 1, max best (cur + 1)).2.2 := by simp
          omega
        exact ((decide_eq_true h2).symm)
      · have h1 : consecWalk K prev cur (i :: t) = consecWalk K i (cur + 1) t := by
          simp [consecWalk, hadj, hover]
        rw [h1, ih i (cur + 1) (max best (cur + 1)) (by omega) (by omega)]
        simp only [List.foldl_cons, hstep]
    · have hstep : streakStep (prev, cur, best) i = (i, 1, max best 1) := by
        simp [streakStep, hadj]
      have h1 : consecWalk K prev cur (i :: t) = consecWalk K i 1 t := by
        simp [consecWalk, hadj]
      rw [h1, ih i 1 (max best 1) (by omega) (by omega)]
      simp only [List.foldl_cons, hstep]

theorem emitsConsec_iff (K : Nat) (hK : 1 ≤ K) (l : List Nat) :
    emitsConsec K l = true ↔ K < maxStreak l := by
  cases l with
  | nil =>
    rw [show emitsConsec K ([] : List Nat) = false from rfl,
      show maxStreak ([] : List Nat) = 0 from rfl]
    constructor
    · intro h
      exact absurd h (by decide)
    · intro h
      omega
  | cons i rest =>
    cases rest with
    | nil =>
      rw [show emitsConsec K [i] = false from rfl, show maxStreak [i] = 1 from rfl]
      constructor
      · intro h
        exact absurd h (by decide)
      · intro h
        omega
    | cons j t =>
      rw [show emitsConsec K (i :: j :: t) = consecWalk K i 1 (j :: t) from rfl]
      rw [consecWalk_eq K hK (j :: t) i 1 1 (by omega) (by omega)]
      simp [maxStreak]

/-! ### Decomposition and counting lemmas -/

theorem contains_iff_mem {α : Type} [BEq α] [LawfulBEq α] (l : List α) (a : α) :
    l.contains a = true ↔ a ∈ l := List.elem_iff

theorem filter_range_decomp (S i n : Nat) (p : Nat → Bool) (h : i + n ≤ S) :
    (List.range S).filter p =
      ((List.range' 0 i).filter p) ++ (((List.range' i n).filter p) ++
        ((List.range' (i + n) (S - (i + n))).filter p)) := by
  have hA := List.range'_append 0 i (S - i) 1
  rw [show 0 + 1 * i = i by omega, show S - i + i = S by omega] at hA
  have hB := List.range'_append i n (S - (i + n)) 1
  rw [show i + 1 * n = i + n by omega, show S - (i + n) + n = S - i by omega] at hB
  rw [List.range_eq_range' S, ← hA, ← hB]
  simp only [List.filter_append]

theorem maxStreak_of_run (A B : List Nat) (i K : Nat) (hK : 1 ≤ K) :
    K < maxStreak (A ++ (List.range' i (K + 1) ++ B)) := by
  have hKne : ¬ (K = 0) := by omega
  cases A with
  | nil =>
    have hcons : List.range' i (K + 1) ++ B = i :: (List.range' (i + 1) K ++ B) := rfl
    rw [List.nil_append, hcons]
    show K < ((List.range' (i + 1) K ++ B).foldl streakStep (i, 1, 1)).2.2
    rw [List.foldl_append, runFold K i 1 1]
    simp only [if_neg hKne]
    have hm : max 1 (1 + K) ≤ (B.foldl streakStep (i + K, 1 + K, max 1 (1 + K))).2.2 :=
      streak_best_mono B (i + K, 1 + K, max 1 (1 + K))
    have h1 : 1 + K ≤ max 1 (1 + K) := Nat.le_max_right _ _
    omega
  | cons a A' =>
    rw [List.cons_append]
    show K < ((A' ++ (List.range' i (K + 1) ++ B)).foldl streakStep (a, 1, 1)).2.2
    rw [List.foldl_append]
    obtain ⟨c2, b2, hst2, hc2⟩ : ∃ c2 b2,
        streakStep (A'.foldl streakStep (a, 1, 1)) i = (i, c2, b2) ∧ 1 ≤ c2 := by
      refine ⟨if i = (A'.foldl streakStep (a, 1, 1)).1 + 1
            then (A'.foldl streakStep (a, 1, 1)).2.1 + 1 else 1,
          max (A'.foldl streakStep (a, 1, 1)).2.2
            (if i = (A'.foldl streakStep (a, 1, 1)).1 + 1
              then (A'.foldl streakStep (a, 1, 1)).2.1 + 1 else 1),
          rfl, ?_⟩
      split_ifs <;> omega
    have hcons : List.range' i (K + 1) ++ B = i :: (List.range' (i + 1) K ++ B) := rfl
    rw [hcons]
    simp only [List.foldl_cons]
    rw [hst2, List.foldl_append, runFold K i c2 b2]
    simp only [if_neg hKne]
    have hm : max b2 (c2 + K) ≤ (B.foldl streakStep (i + K, c2 + K, max b2 (c2 + K))).2.2 :=
      streak_best_mono B (i + K, c2 + K, max b2 (c2 + K))
    have h1 : c2 + K ≤ max b2 (c2 + K) := Nat.le_max_right _ _
    omega

theorem maxStreak_window {p : Nat → Bool} {S K i : Nat} (hK : 1 ≤ K)
    (hiK : i + K < S) (hwin : ∀ j, j ≤ K → p (i + j) = true) :
    K < maxStreak ((List.range S).filter p) := by
  rw [filter_range_decomp S i (K + 1) p (by omega)]
  have hmid : (List.range' i (K + 1)).filter p = List.range' i (K + 1) := by
    rw [List.filter_eq_self]
    intro x hx
    rw [List.mem_range'_1] at hx
    have hx2 : x = i + (x - i) := by omega
    rw [hx2]
    exact hwin (x - i) (by omega)
  rw [hmid]
  exact maxStreak_of_run _ _ i K hK

theorem zip_adj (s t : Nat) : ∀ (A B : List Nat),
    (s, t) ∈ (A ++ s :: t :: B).zip (A ++ s :: t :: B).tail := by
  intro A
  induction A with
  | nil =>
    intro B
    simp [List.zip_cons_cons]
  | cons a A' ih =>
    intro B
    obtain ⟨m0, M', hM⟩ : ∃ m0 M', A' ++ s :: t :: B = m0 :: M' := by
      cases hA : A' ++ s :: t :: B with
      | nil => exact absurd hA (by simp)
      | cons x xs => exact ⟨x, xs, rfl⟩
    have hgoal : (a :: (A' ++ s :: t :: B)).zip (a :: (A' ++ s :: t :: B)).tail =
        (a, m0) :: ((m0 :: M').zip M') := by
      rw [List.tail_cons, hM, List.zip_cons_cons]
    rw [List.cons_append, hgoal]
    apply List.mem_cons_of_mem
    have hih := ih B
    rw [hM, List.tail_cons] at hih
    exact hih

theorem count_shift_eq (asg : List (Nat × Nat)) (hnd : asg.Nodup) (D s : Nat)
    (hb : ∀ pr ∈ asg, pr.1 < D) :
    countAssignmentsForShift asg s =
      ((List.range D).filter (fun d => asg.contains (d, s))).length := by
  unfold countAssignmentsForShift
  have hFnd : (asg.filter (fun pr => decide (pr.2 = s))).Nodup := hnd.filter _
  have hmap : ((asg.filter (fun pr => decide (pr.2 = s))).map Prod.fst).Nodup := by
    apply List.Nodup.map_on _ hFnd
    intro x hx y hy hxy
    have hx2 : x.2 = s := by simpa using (List.mem_filter.mp hx).2
    have hy2 : y.2 = s := by simpa using (List.mem_filter.mp hy).2
    exact Prod.ext hxy (hx2.trans hy2.symm)
  have hG : ((List.range D).filter (fun d => asg.contains (d, s))).Nodup :=
    (List.nodup_range D).filter _
  have hperm : ((asg.filter (fun pr => decide (pr.2 = s))).map Prod.fst).Perm
      ((List.range D).filter (fun d => asg.contains (d, s))) := by
    rw [List.perm_ext_iff_of_nodup hmap hG]
    intro d
    simp only [List.mem_map, List.mem_filter, List.mem_range, decide_eq_true_eq]
    constructor
    · rintro ⟨⟨d', s'⟩, ⟨hmem, hs'⟩, hfst⟩
      simp only at hs' hfst
      subst hs'
      subst hfst
      exact ⟨hb _ hmem, (contains_iff_mem asg _).mpr hmem⟩
    · rintro ⟨hd, hcont⟩
      exact ⟨(d, s), ⟨(contains_iff_mem asg _).mp hcont, rfl⟩, rfl⟩
  calc (asg.filter (fun pr => decide (pr.2 = s))).length
      = ((asg.filter (fun pr => decide (pr.2 = s))).map Prod.fst).length :=
        (List.length_map _ _).symm
    _ = _ := hperm.length_eq

theorem count_doctor_eq (asg : List (Nat × Nat)) (hnd : asg.Nodup) (S d : Nat)
    (hb : ∀ pr ∈ asg, pr.2 < S) :
    countAssignmentsForDoctor asg d =
      ((List.range S).filter (fun s => asg.contains (d, s))).length := by
  unfold countAssignmentsForDoctor
  have hFnd : (asg.filter (fun pr => decide (pr.1 = d))).Nodup := hnd.filter _
  have hmap : ((asg.filter (fun pr => decide (pr.1 = d))).map Prod.snd).Nodup := by
    apply List.Nodup.map_on _ hFnd
    intro x hx y hy hxy
    have hx1 : x.1 = d := by simpa using (List.mem_filter.mp hx).2
    have hy1 : y.1 = d := by simpa using (List.mem_filter.mp hy).2
    exact Prod.ext (hx1.trans hy1.symm) hxy
  have hG : ((List.range S).filter (fun s => asg.contains (d, s))).Nodup :=
    (List.nodup_range S).filter _
  have hperm : ((asg.filter (fun pr => decide (pr.1 = d))).map Prod.snd).Perm
      ((List.range S).filter (fun s => asg.contains (d, s))) := by
    rw [List.perm_ext_iff_of_nodup hmap hG]
    intro s
    simp only [List.mem_map, List.mem_filter, List.mem_range, decide_eq_true_eq]
    constructor
    · rintro ⟨⟨d', s'⟩, ⟨hmem, hd'⟩, hsnd⟩
      simp only at hd' hsnd
      subst hd'
      subst hsnd
      exact ⟨hb _ hmem, (contains_iff_mem asg _).mpr hmem⟩
    · rintro ⟨hs, hcont⟩
      exact ⟨(d, s), ⟨(contains_iff_mem asg _).mp hcont, rfl⟩, rfl⟩
  calc (asg.filter (fun pr => decide (pr.1 = d))).length
      = ((asg.filter (fun pr => decide (pr.1 = d))).map Prod.snd).length :=
        (List.length_map _ _).symm
    _ = _ := hperm.length_eq

theorem filter_flatMap_doctor {f : Nat → List Violation} {d : Nat} :
    ∀ (l : List Nat), l.Nodup → d ∈ l →
      (∀ d', (f d').filter (fun v => decide (v.doctor = some d)) =
        if d' = d then f d' else []) →
      ((l.flatMap f).filter (fun v => decide (v.doctor = some d))) = f d := by
  intro l
  induction l with
  | nil =>
    intro _ h _
    exact absurd h (List.not_mem_nil d)
  | cons a t ih =>
    intro hnd hmem hf
    simp only [List.flatMap_cons, List.filter_append]
    by_cases had : a = d
    · subst had
      rw [hf a, if_pos rfl]
      have htail : ((t.flatMap f).filter (fun v => decide (v.doctor = some a))) = [] := by
        rw [List.filter_eq_nil_iff]
        intro v hv
        rw [List.mem_flatMap] at hv
        obtain ⟨d', hd', hvd'⟩ := hv
        have hne : d' ≠ a := by
          intro hcontr
          subst hcontr
          exact (List.nodup_cons.mp hnd).1 hd'
        have hfd' := hf d'
        rw [if_neg hne] at hfd'
        have := List.filter_eq_nil_iff.mp hfd' v hvd'
        simpa using this
      rw [htail, List.append_nil]
    · have hmem' : d ∈ t := by
        rcases List.mem_cons.mp hmem with hcase | hcase
        · exact absurd hcase.symm had
        · exact hcase
      rw [hf a, if_neg had, List.nil_append]
      exact ih (List.nodup_cons.mp hnd).2 hmem' hf

/-! ### Breach-to-violation lemmas -/

theorem coverage_breach_mem (snap : Snapshot) (asg : List (Nat × Nat))
    (hnd : asg.Nodup) (hb : ∀ pr ∈ asg, pr.1 < snap.doctors.length)
    (h : coverageBreach snap asg) :
    ∃ v, v ∈ checkCoverageViolations snap asg := by
  obtain ⟨s, sh, hget, hlt⟩ := h
  have hs : s < snap.shifts.length := by
    rcases List.get?_eq_some.mp hget with ⟨hlen, _⟩
    exact hlen
  have hcount := count_shift_eq asg hnd snap.doctors.length s hb
  have hcond : countAssignmentsForShift asg s < coverageBoundV sh snap.configuration := by
    have hBV : coverageBoundV sh snap.configuration = coverageBoundB sh snap.configuration := rfl
    rw [hBV, hcount]
    exact hlt
  refine ⟨⟨ViolationType.underCoverage, Severity.error, none⟩, ?_⟩
  unfold checkCoverageViolations
  rw [List.mem_filterMap]
  refine ⟨s, List.mem_range.mpr hs, ?_⟩
  simp only [hget, if_pos hcond]

theorem workload_breach_mem (snap : Snapshot) (asg : List (Nat × Nat))
    (hnd : asg.Nodup) (hb : ∀ pr ∈ asg, pr.2 < snap.shifts.length)
    (h : workloadBreach snap asg) :
    ∃ v, v ∈ checkWorkloadViolations snap asg := by
  obtain ⟨d, hd, hcase⟩ := h
  have hcount := count_doctor_eq asg hnd snap.shifts.length d hb
  rcases hcase with hlt | hgt
  · refine ⟨⟨ViolationType.underMinShifts, Severity.warning, some d⟩, ?_⟩
    unfold checkWorkloadViolations
    rw [List.mem_flatMap]
    refine ⟨d, List.mem_range.mpr hd, ?_⟩
    apply List.mem_append_left
    rw [if_pos (by rw [hcount]; exact hlt)]
    exact List.mem_singleton_self _
  · refine ⟨⟨ViolationType.overMaxShifts, Severity.error, some d⟩, ?_⟩
    unfold checkWorkloadViolations
    rw [List.mem_flatMap]
    refine ⟨d, List.mem_range.mpr hd, ?_⟩
    apply List.mem_append_right
    rw [if_pos (by rw [hcount]; exact hgt)]
    exact List.mem_singleton_self _

theorem consecutive_breach_mem (snap : Snapshot) (asg : List (Nat × Nat))
    (hK : 1 ≤ snap.configuration.maxConsecutiveShifts)
    (h : consecutiveBreach snap asg) :
    ∃ v, v ∈ checkConsecutiveShiftViolations snap asg := by
  obtain ⟨d, i, hd, hiK, hwin⟩ := h
  have hms : snap.configuration.maxConsecutiveShifts <
      maxStreak (doctorShiftIndices asg snap.shifts.length d) := by
    unfold doctorShiftIndices
    exact maxStreak_window hK hiK (fun j hj => hwin j hj)
  have hemits := (emitsConsec_iff _ hK _).mpr hms
  refine ⟨⟨ViolationType.tooManyConsecutiveShifts, Severity.error, some d⟩, ?_⟩
  unfold checkConsecutiveShiftViolations
  rw [List.mem_flatMap]
  refine ⟨d, List.mem_range.mpr hd, ?_⟩
  rw [if_pos hemits]
  exact List.mem_singleton_self _

theorem rest_breach_mem (snap : Snapshot) (asg : List (Nat × Nat))
    (h : restBreach snap asg) :
    ∃ v, v ∈ checkRestPeriodViolations snap asg := by
  obtain ⟨hmin, d, s, cur, nxt, hd, hg1, hg2, hnight, hday, hdate, hc1, hc2⟩ := h
  have hs1 : s + 1 < snap.shifts.length := by
    rcases List.get?_eq_some.mp hg2 with ⟨hlen, _⟩
    exact hlen
  have hdec : doctorShiftIndices asg snap.shifts.length d =
      ((List.range' 0 s).filter (fun x => asg.contains (d, x))) ++
        (s :: (s + 1) ::
          ((List.range' (s + 2) (snap.shifts.length - (s + 2))).filter
            (fun x => asg.contains (d, x)))) := by
    unfold doctorShiftIndices
    rw [filter_range_decomp snap.shifts.length s 2 _ (by omega)]
    congr 1
    have hmem1 : (d, s) ∈ asg := (contains_iff_mem asg _).mp hc1
    have hmem2 : (d, s + 1) ∈ asg := (contains_iff_mem asg _).mp hc2
    have h2 : List.range' s 2 = [s, s + 1] := rfl
    rw [h2]
    simp [List.filter_cons, hmem1, hmem2]
  refine ⟨⟨ViolationType.insufficientRest, Severity.error, some d⟩, ?_⟩
  unfold checkRestPeriodViolations
  rw [if_neg (by omega)]
  rw [List.mem_flatMap]
  refine ⟨d, List.mem_range.mpr hd, ?_⟩
  rw [List.mem_filterMap]
  refine ⟨(s, s + 1), ?_, ?_⟩
  · rw [hdec]
    exact zip_adj s (s + 1) _ _
  · simp only [hg1, hg2, if_pos (And.intro hnight (And.intro hday hdate))]

/-! ### dateNew and snapshotE helpers -/

theorem dateNew_ok_bounds {y m d x : Nat} (h : dateNew y m d = Except.ok x) :
    1 ≤ y ∧ y ≤ 9999 ∧ 1 ≤ m ∧ m ≤ 12 ∧ 1 ≤ d ∧ d ≤ daysInMonth y m := by
  unfold dateNew at h
  split_ifs at h with hc
  exact hc

theorem dateNew_error_bounds {y m d : Nat} {e : SnapError}
    (h : dateNew y m d = Except.error e) :
    ¬(1 ≤ y ∧ y ≤ 9999 ∧ 1 ≤ m ∧ m ≤ 12 ∧ 1 ≤ d ∧ d ≤ daysInMonth y m) := by
  unfold dateNew at h
  split_ifs at h with hc
  exact hc

theorem snapshotE_none_orElse (p : Persist) :
    (none : Option ConfigRow).orElse (fun _ => p.configs.find? (fun c => c.isActive)) =
      p.configs.find? (fun c => c.isActive) := rfl

/-! ### Sorted-permutation uniqueness lemmas -/

theorem eq_of_perm_sorted_antisymm {α : Type} (r : α → α → Prop)
    (hasym : ∀ a b, r a b → r b a → a = b) {l1 l2 : List α}
    (hp : l1.Perm l2) (h1 : l1.Pairwise r) (h2 : l2.Pairwise r) : l1 = l2 := by
  haveI : IsAntisymm α r := ⟨hasym⟩
  exact List.eq_of_perm_of_sorted hp h1 h2

theorem doctors_query_unique (p : Persist)
    (hkeys : (p.doctors.filter (fun d => d.active)).Pairwise
      (fun a b => a.lastName ≠ b.lastName ∨ a.firstName ≠ b.firstName))
    {l1 l2 : List DoctorRow} (h1 : doctorsQueryRes p l1) (h2 : doctorsQueryRes p l2) :
    l1 = l2 := by
  obtain ⟨hp1, hs1⟩ := h1
  obtain ⟨hp2, hs2⟩ := h2
  have hsymm : ∀ {a b : DoctorRow},
      (a.lastName ≠ b.lastName ∨ a.firstName ≠ b.firstName) →
      (b.lastName ≠ a.lastName ∨ b.firstName ≠ a.firstName) := by
    intro a b hab
    rcases hab with hx | hx
    · exact Or.inl (Ne.symm hx)
    · exact Or.inr (Ne.symm hx)
  have hk1 : l1.Pairwise (fun a b => a.lastName ≠ b.lastName ∨ a.firstName ≠ b.firstName) :=
    (hp1.pairwise_iff hsymm).mpr hkeys
  have hk2 : l2.Pairwise (fun a b => a.lastName ≠ b.lastName ∨ a.firstName ≠ b.firstName) :=
    (hp2.pairwise_iff hsymm).mpr hkeys
  apply eq_of_perm_sorted_antisymm
    (fun a b => nameLe a b ∧ (a.lastName ≠ b.lastName ∨ a.firstName ≠ b.firstName))
  · intro a b hab hba
    exfalso
    obtain ⟨hle1, hne1⟩ := hab
    obtain ⟨hle2, _⟩ := hba
    unfold nameLe at hle1 hle2
    rcases hle1 with hlt1 | ⟨he1, hf1⟩
    · rcases hle2 with hlt2 | ⟨he2, _⟩
      · exact absurd hlt2 (lt_asymm hlt1)
      · rw [he2] at hlt1
        exact lt_irrefl _ hlt1
    · rcases hle2 with hlt2 | ⟨he2, hf2⟩
      · rw [he1] at hlt2
        exact lt_irrefl _ hlt2
      · rcases hne1 with hn | hn
        · exact hn he1
        · exact hn (le_antisymm hf1 hf2)
  · exact hp1.trans hp2.symm
  · exact hs1.and hk1
  · exact hs2.and hk2

theorem shifts_query_unique (month year : Nat) (p : Persist)
    (hkeys : (p.shifts.filter (shiftInMonth year month)).Pairwise
      (fun a b => a.date ≠ b.date ∨ a.shiftType ≠ b.shiftType))
    {l1 l2 : List ShiftRow} (h1 : shiftsQueryRes month year p l1)
    (h2 : shiftsQueryRes month year p l2) : l1 = l2 := by
  obtain ⟨hp1, hs1⟩ := h1
  obtain ⟨hp2, hs2⟩ := h2
  have hsymm : ∀ {a b : ShiftRow},
      (a.date ≠ b.date ∨ a.shiftType ≠ b.shiftType) →
      (b.date ≠ a.date ∨ b.shiftType ≠ a.shiftType) := by
    intro a b hab
    rcases hab with hx | hx
    · exact Or.inl (Ne.symm hx)
    · exact Or.inr (Ne.symm hx)
  have hk1 : l1.Pairwise (fun a b => a.date ≠ b.date ∨ a.shiftType ≠ b.shiftType) :=
    (hp1.pairwise_iff hsymm).mpr hkeys
  have hk2 : l2.Pairwise (fun a b => a.date ≠ b.date ∨ a.shiftType ≠ b.shiftType) :=
    (hp2.pairwise_iff hsymm).mpr hkeys
  have hordinj : ∀ a b : ShiftType, shiftTypeOrd a = shiftTypeOrd b → a = b := by
    intro a b
    cases a <;> cases b <;> simp [shiftTypeOrd]
  apply eq_of_perm_sorted_antisymm
    (fun a b => shiftLe a b ∧ (a.date ≠ b.date ∨ a.shiftType ≠ b.shiftType))
  · intro a b hab hba
    exfalso
    obtain ⟨hle1, hne1⟩ := hab
    obtain ⟨hle2, _⟩ := hba
    unfold shiftLe at hle1 hle2
    rcases hle1 with hlt1 | ⟨he1, hf1⟩
    · rcases hle2 with hlt2 | ⟨he2, _⟩
      · omega
      · rw [he2] at hlt1
        omega
    · rcases hle2 with hlt2 | ⟨he2, hf2⟩
      · rw [he1] at hlt2
        omega
      · rcases hne1 with hn | hn
        · exact hn he1
        · exact hn (hordinj _ _ (by omega))
  · exact hp1.trans hp2.symm
  · exact hs1.and hk1
  · exact hs2.and hk2

/-! ### Claim theorems -/

/-- C1 (amended): the validator re-derives violations for only four of the
eight hard rules of the builder — coverage, workload, consecutive shifts
and rest period. Any duplicate-free, in-range assignment set breaching one
of those four rules produces at least one violation record; the remaining
builder rules (leave, single day off, max consecutive days off, skill mix)
are not re-checked, as the counterexample shows. -/
theorem c1_validator_rechecks_four_rules (snap : Snapshot) (asg : List (Nat × Nat))
    (hnd : asg.Nodup)
    (hb : ∀ pr ∈ asg, pr.1 < snap.doctors.length ∧ pr.2 < snap.shifts.length)
    (hK : 1 ≤ snap.configuration.maxConsecutiveShifts)
    (h : coverageBreach snap asg ∨ workloadBreach snap asg ∨
      consecutiveBreach snap asg ∨ restBreach snap asg) :
    detectViolations snap asg ≠ [] := by
  have hb1 : ∀ pr ∈ asg, pr.1 < snap.doctors.length := fun pr hpr => (hb pr hpr).1
  have hb2 : ∀ pr ∈ asg, pr.2 < snap.shifts.length := fun pr hpr => (hb pr hpr).2
  unfold detectViolations
  rcases h with h | h | h | h
  · obtain ⟨v, hv⟩ := coverage_breach_mem snap asg hnd hb1 h
    exact List.ne_nil_of_mem
      (List.mem_append_left _ (List.mem_append_left _ (List.mem_append_left _ hv)))
  · obtain ⟨v, hv⟩ := workload_breach_mem snap asg hnd hb2 h
    exact List.ne_nil_of_mem
      (List.mem_append_left _ (List.mem_append_left _ (List.mem_append_right _ hv)))
  · obtain ⟨v, hv⟩ := consecutive_breach_mem snap asg hK h
    exact List.ne_nil_of_mem (List.mem_append_left _ (List.mem_append_right _ hv))
  · obtain ⟨v, hv⟩ := rest_breach_mem snap asg h
    exact List.ne_nil_of_mem (List.mem_append_right _ hv)

/-- C1 counterexample: in snapLeaveBreach the only doctor is assigned the
only shift although its date is in the approved-leave set of the doctor — the
leave rule of the builder pins that pair to zero — yet the validator derives no
violation at all, because the leave rule is not among the checks it runs. -/
theorem c1_leave_breach_undetected :
    (0, 0) ∈ leaveConstraintPairs snapLeaveBreach ∧
    detectViolations snapLeaveBreach [(0, 0)] = [] := by
  constructor
  · decide
  · decide

/-- C1 witness: a concrete under-covered snapshot on which the amended
theorem applies and yields a nonempty violation list. -/
theorem c1_witness :
    ([] : List (Nat × Nat)).Nodup ∧
    1 ≤ snapCovBreach.configuration.maxConsecutiveShifts ∧
    detectViolations snapCovBreach [] ≠ [] := by
  refine ⟨by decide, by decide, ?_⟩
  apply c1_validator_rechecks_four_rules snapCovBreach [] (by decide) (by simp) (by decide)
  exact Or.inl ⟨0, shiftW1, by decide, by decide⟩

/-- C2: the builder (constraints.py:35) and the validator
(solution_parser.py:142) compute identical coverage bounds; a present
positive min_doctors override is always used verbatim, and the
configuration default is used exactly when the override is absent (the
falsy value 0 of the non-nullable field, which the Python or falls back on). -/
theorem c2_coverage_bound_override (sh : ShiftRow) (cfg : ConfigRow) :
    coverageBoundB sh cfg = coverageBoundV sh cfg ∧
    (0 < sh.minDoctors → coverageBoundB sh cfg = sh.minDoctors ∧
      coverageBoundV sh cfg = sh.minDoctors) ∧
    (sh.minDoctors = 0 → coverageBoundB sh cfg = cfg.defaultMinDoctorsPerShift ∧
      coverageBoundV sh cfg = cfg.defaultMinDoctorsPerShift) := by
  refine ⟨rfl, ?_, ?_⟩
  · intro h
    unfold coverageBoundB coverageBoundV
    rw [if_neg (by omega : ¬ sh.minDoctors = 0)]
    exact ⟨rfl, rfl⟩
  · intro h
    unfold coverageBoundB coverageBoundV
    rw [if_pos h]
    exact ⟨rfl, rfl⟩

/-- C2 witness: a shift with explicit override 3 keeps bound 3 on both
sides, never the default 2. -/
theorem c2_witness :
    0 < shiftC2.minDoctors ∧ coverageBoundB shiftC2 cfgC2 = shiftC2.minDoctors ∧
    coverageBoundV shiftC2 cfgC2 = shiftC2.minDoctors :=
  ⟨by decide, ((c2_coverage_bound_override shiftC2 cfgC2).2.1 (by decide)).1,
    ((c2_coverage_bound_override shiftC2 cfgC2).2.1 (by decide)).2⟩

/-- C3 (amended): the snapshot fails with the no-active-configuration error
exactly as claimed, but no period validation of the claimed form exists:
the only rejections come from the datetime.date constructor, so a month
outside [1,12] (or a year outside the calendar range 1..9999, or the
December roll-over past year 9999) raises ValueError, while any year below
2024 inside that range is accepted and returns a dataset. -/
theorem c3_snapshot_error_characterization (m y : Nat) (p : Persist) :
    (p.configs.find? (fun c => c.isActive) = none →
      snapshotE m y none p = Except.error SnapError.noActiveConfiguration) ∧
    ((p.configs.find? (fun c => c.isActive)).isSome = true →
      ((snapshotE m y none p).isOk = true ↔
        (1 ≤ m ∧ m ≤ 12 ∧ 1 ≤ y ∧ y ≤ 9999 ∧ ¬(m = 12 ∧ y = 9999)))) := by
  constructor
  · intro h
    unfold snapshotE
    rw [snapshotE_none_orElse, h]
  · intro h
    obtain ⟨cfg, hcfg⟩ := Option.isSome_iff_exists.mp h
    unfold snapshotE
    rw [snapshotE_none_orElse, hcfg]
    cases hd1 : dateNew y m 1 with
    | error e =>
      have hnot := dateNew_error_bounds hd1
      rw [show (Except.error e : Except SnapError Snapshot).isOk = false from rfl]
      constructor
      · intro hok
        exact absurd hok (by decide)
      · intro hbig
        exfalso
        obtain ⟨hm1, hm2, hy1, hy2, hne⟩ := hbig
        exact hnot ⟨hy1, hy2, hm1, hm2, le_refl 1, one_le_daysInMonth y m⟩
    | ok firstDay =>
      have hb1 := dateNew_ok_bounds hd1
      cases hd2 : (if m = 12 then dateNew (y + 1) 1 1 else dateNew y (m + 1) 1) with
      | error e2 =>
        rw [show (Except.error e2 : Except SnapError Snapshot).isOk = false from rfl]
        constructor
        · intro hok
          exact absurd hok (by decide)
        · intro hbig
          exfalso
          obtain ⟨hm1, hm2, hy1, hy2, hne⟩ := hbig
          by_cases h12 : m = 12
          · rw [if_pos h12] at hd2
            have hy9 : y ≠ 9999 := fun hy => hne ⟨h12, hy⟩
            exact dateNew_error_bounds hd2
              ⟨by omega, by omega, by omega, by omega, by omega, one_le_daysInMonth (y + 1) 1⟩
          · rw [if_neg h12] at hd2
            exact dateNew_error_bounds hd2
              ⟨by omega, by omega, by omega, by omega, by omega, one_le_daysInMonth y (m + 1)⟩
      | ok nextFirst =>
        rw [show (Except.ok
          { configuration := cfg
            doctors := sortByName (p.doctors.filter (fun d => d.active))
            shifts := sortShifts (p.shifts.filter (shiftInMonth y m))
            leaveDates := loadApprovedLeave firstDay (nextFirst - 1) p.leaves } :
            Except SnapError Snapshot).isOk = true from rfl]
        constructor
        · intro _
          obtain ⟨hy1, hy2, hm1, hm2, _, _⟩ := hb1
          refine ⟨hm1, hm2, hy1, hy2, ?_⟩
          rintro ⟨h12, hy9⟩
          rw [if_pos h12] at hd2
          have hb2 := dateNew_ok_bounds hd2
          omega
        · intro _
          rfl

/-- C3 counterexample: with an active configuration present, snapshot(1,
2020) succeeds and returns a dataset although 2020 < 2024 — the claimed
InvalidPeriod rejection of years below 2024 does not exist in the code. -/
theorem c3_accepts_pre2024_year :
    (snapshotE 1 2020 none pC3).isOk = true ∧ 2020 < 2024 := by
  constructor
  · decide
  · decide

/-- C3 witness: the characterization applied at a concrete valid period. -/
theorem c3_witness :
    (pC3.configs.find? (fun c => c.isActive)).isSome = true ∧
    (snapshotE 2 2025 none pC3).isOk = true :=
  ⟨by decide,
    ((c3_snapshot_error_characterization 2 2025 pC3).2 (by decide)).mpr (by decide)⟩

/-- C4 (amended): save_to_database is idempotent — running it twice with
the same solution leaves the persisted state of a single run — and a
feasible save replaces all prior assignments; however prior violations are
replaced only when the new run detects at least one violation, so a clean
later save leaves violation records of an earlier run in place (see the
counterexample). -/
theorem c4_save_idempotent (sol : ScheduleSolution) (snap : Snapshot) (now : Nat) (db : Db) :
    saveToDatabase sol snap now (saveToDatabase sol snap now db) =
      saveToDatabase sol snap now db ∧
    (sol.isFeasible = true → (saveToDatabase sol snap now db).assignments = sol.assignments) := by
  constructor
  · by_cases hf : sol.isFeasible
    · by_cases hv : detectViolations snap sol.assignments = [] <;>
        simp [saveToDatabase, hf, hv]
    · simp [saveToDatabase, hf]
  · intro hf
    simp [saveToDatabase, hf]

/-- C4 counterexample: a violation row persisted by an earlier run survives
a later feasible save whose re-validation finds nothing, because
_save_violations (which deletes the old rows) only runs when the new list
is nonempty. -/
theorem c4_stale_violation_survives :
    solC4.isFeasible = true ∧ dbC4.violations = [staleViol] ∧
    (saveToDatabase solC4 snapC4 5 dbC4).violations = [staleViol] := by
  refine ⟨by decide, by decide, ?_⟩
  decide

/-- C4 witness: the amended theorem at a concrete feasible run. -/
theorem c4_witness :
    solC4.isFeasible = true ∧
    (saveToDatabase solC4 snapC4 5 dbC4).assignments = solC4.assignments :=
  ⟨by decide, (c4_save_idempotent solC4 snapC4 5 dbC4).2 (by decide)⟩

/-- C5: on any solver status outside OPTIMAL and FEASIBLE (UNKNOWN
included) the save writes no assignments and no violations; it only
stamps the engine status name, the solve time and the fixed note on the
schedule row, which is created if absent and retained. -/
theorem c5_infeasible_save_writes_only_status (sol : ScheduleSolution) (snap : Snapshot)
    (now : Nat) (db : Db) (h : sol.isFeasible = false) :
    saveToDatabase sol snap now db =
      { schedule := some { db.schedule.getD newDraftSchedule with
          solverStatus := sol.status
          solverTimeSeconds := some sol.solverTime
          notes := infeasibleNote }
        assignments := db.assignments
        violations := db.violations } := by
  simp [saveToDatabase, h]

/-- C5 witness: a timed-out UNKNOWN result at a concrete state. -/
theorem c5_witness :
    solC5.isFeasible = false ∧
    saveToDatabase solC5 snapC5 7 dbC5 =
      { schedule := some { dbC5.schedule.getD newDraftSchedule with
          solverStatus := solC5.status
          solverTimeSeconds := some solC5.solverTime
          notes := infeasibleNote }
        assignments := dbC5.assignments
        violations := dbC5.violations } :=
  ⟨by decide, c5_infeasible_save_writes_only_status solC5 snapC5 7 dbC5 (by decide)⟩

/-- C6: for every doctor in range and every configuration admitted by the
model validator (max_consecutive_shifts ≥ 1), the validator emits a
too-many-consecutive-shifts violation for that doctor iff the longest run
of position-adjacent assigned shift positions exceeds the maximum, and it
emits at most one such violation per doctor (the walk stops at the first
counter overflow). -/
theorem c6_consecutive_violation_characterization (snap : Snapshot)
    (asg : List (Nat × Nat)) (d : Nat)
    (hK : 1 ≤ snap.configuration.maxConsecutiveShifts)
    (hd : d < snap.doctors.length) :
    ((((checkConsecutiveShiftViolations snap asg).filter
        (fun v => decide (v.doctor = some d))) ≠ []) ↔
      snap.configuration.maxConsecutiveShifts <
        maxStreak (doctorShiftIndices asg snap.shifts.length d)) ∧
    ((checkConsecutiveShiftViolations snap asg).filter
        (fun v => decide (v.doctor = some d))).length ≤ 1 := by
  have hflt : ((checkConsecutiveShiftViolations snap asg).filter
      (fun v => decide (v.doctor = some d))) =
      (if emitsConsec snap.configuration.maxConsecutiveShifts
          (doctorShiftIndices asg snap.shifts.length d)
        then [⟨ViolationType.tooManyConsecutiveShifts, Severity.error, some d⟩]
        else []) := by
    unfold checkConsecutiveShiftViolations
    apply filter_flatMap_doctor (List.range snap.doctors.length) (List.nodup_range _)
      (List.mem_range.mpr hd)
    intro d'
    by_cases he : emitsConsec snap.configuration.maxConsecutiveShifts
        (doctorShiftIndices asg snap.shifts.length d') <;>
      by_cases hdd : d' = d <;>
      simp [he, hdd]
  rw [hflt]
  constructor
  · by_cases he : emitsConsec snap.configuration.maxConsecutiveShifts
        (doctorShiftIndices asg snap.shifts.length d) = true
    · rw [if_pos he]
      constructor
      · intro _
        exact (emitsConsec_iff _ hK _).mp he
      · intro _
        simp
    · rw [if_neg he]
      constructor
      · intro hne
        exact absurd rfl hne
      · intro hms
        exact absurd ((emitsConsec_iff _ hK _).mpr hms) he
  · split_ifs <;> simp

/-- C6 witness: a doctor holding two position-adjacent shifts under a
maximum of one gets exactly one violation. -/
theorem c6_witness :
    1 ≤ snapC6.configuration.maxConsecutiveShifts ∧ 0 < snapC6.doctors.length ∧
    (((checkConsecutiveShiftViolations snapC6 [(0, 0), (0, 1)]).filter
      (fun v => decide (v.doctor = some 0))) ≠ []) :=
  ⟨by decide, by decide,
    (c6_consecutive_violation_characterization snapC6 [(0, 0), (0, 1)] 0
      (by decide) (by decide)).1.mpr (by decide)⟩

/-- C7: every date produced by the leave loader lies in the month interval
[first_day, last_day]; last_day is genuinely the last calendar day of the
month (first_day plus the month length minus one, December rolling over to
the next year); and rows whose status is not approved contribute nothing. -/
theorem c7_leave_dates_within_month (y m : Nat) (hy : 1 ≤ y) (hm1 : 1 ≤ m) (hm2 : m ≤ 12)
    (leaves : List LeaveRow) (did x : Nat) :
    (x ∈ loadApprovedLeave (monthFirst y m) (monthLast y m) leaves did →
      monthFirst y m ≤ x ∧ x ≤ monthLast y m) ∧
    monthLast y m + 1 = monthFirst y m + daysInMonth y m ∧
    (∀ row : LeaveRow, row.status ≠ LeaveStatus.approved →
      loadApprovedLeave (monthFirst y m) (monthLast y m) (leaves ++ [row]) =
        loadApprovedLeave (monthFirst y m) (monthLast y m) leaves) := by
  refine ⟨?_, monthLast_succ y m hy hm1 hm2, ?_⟩
  · intro hx
    unfold loadApprovedLeave at hx
    rw [List.mem_flatMap] at hx
    obtain ⟨r, hr, hxr⟩ := hx
    have hb := mem_datesFromTo hxr
    have h1 : monthFirst y m ≤ max r.startDate (monthFirst y m) := Nat.le_max_right _ _
    have h2 : min r.endDate (monthLast y m) ≤ monthLast y m := Nat.min_le_right _ _
    omega
  · intro row hrow
    unfold loadApprovedLeave
    funext did'
    rw [List.filter_append]
    have hrowf : List.filter (fun r =>
        decide (r.status = LeaveStatus.approved ∧ r.startDate ≤ monthLast y m ∧
          monthFirst y m ≤ r.endDate ∧ r.doctorId = did')) [row] = [] := by
      simp [hrow]
    rw [hrowf, List.append_nil]

/-- C7 witness: December 2024, exercising the roll-over and a concrete
clipped membership. -/
theorem c7_witness :
    1 ≤ 2024 ∧ 1 ≤ 12 ∧ 12 ≤ 12 ∧
    monthLast 2024 12 + 1 = monthFirst 2024 12 + daysInMonth 2024 12 ∧
    loadApprovedLeave (monthFirst 2024 12) (monthLast 2024 12)
        ([rowC7] ++ [⟨5, 3, 9, LeaveStatus.pending⟩]) =
      loadApprovedLeave (monthFirst 2024 12) (monthLast 2024 12) [rowC7] :=
  ⟨by decide, by decide, by decide,
    (c7_leave_dates_within_month 2024 12 (by decide) (by decide) (by decide) [rowC7] 5 0).2.1,
    (c7_leave_dates_within_month 2024 12 (by decide) (by decide) (by decide) [rowC7] 5 0).2.2
      ⟨5, 3, 9, LeaveStatus.pending⟩ (by decide)⟩

/-- C8 (amended): when the snapshot loads successfully, the generation task
aborts with an error result before solving and persists nothing for a
finalized schedule; but when loading raises (for example with no active
configuration), the generic exception handler stamps solver_status ERROR
and a note onto the schedule row even though it is finalized — shown by the
counterexample. -/
theorem c8_finalized_schedule_untouched (m y : Nat) (p : Persist)
    (solve : Snapshot → ScheduleSolution) (now : Nat) (db : Db) (r : ScheduleRec)
    (hdb : db.schedule = some r) (hfin : r.status = ScheduleStatus.finalized)
    (hok : (snapshotE m y none p).isOk = true) :
    generateScheduleTask m y p solve now db = (TaskOutcome.finalizedError, db) := by
  unfold generateScheduleTask
  cases hsn : snapshotE m y none p with
  | error e =>
    rw [hsn, show (Except.error e : Except SnapError Snapshot).isOk = false from rfl] at hok
    exact absurd hok (by decide)
  | ok snap =>
    simp [hdb, hfin]

/-- C8 counterexample: with a finalized schedule on record and no active
configuration, the exception handler of the task overwrites the finalized
solver_status of the schedule (OPTIMAL before, ERROR after) — metadata is
persisted despite the finalized status. -/
theorem c8_finalized_metadata_overwritten :
    dbFin.schedule.map (fun r => r.status) = some ScheduleStatus.finalized ∧
    (generateScheduleTask 1 2025 pNoCfg solveStub 0 dbFin).2.schedule.map
      (fun r => r.solverStatus) = some "ERROR" ∧
    dbFin.schedule.map (fun r => r.solverStatus) = some "OPTIMAL" := by
  refine ⟨by decide, ?_, by decide⟩
  decide

/-- C8 witness: the amended theorem at a concrete loadable state. -/
theorem c8_witness :
    dbFin.schedule = some recFin ∧ recFin.status = ScheduleStatus.finalized ∧
    (snapshotE 3 2025 none pC8).isOk = true ∧
    generateScheduleTask 3 2025 pC8 solveStub 0 dbFin = (TaskOutcome.finalizedError, dbFin) :=
  ⟨rfl, rfl, by decide,
    c8_finalized_schedule_untouched 3 2025 pC8 solveStub 0 dbFin recFin rfl rfl (by decide)⟩

/-- C9 (amended): the ordered queries determine the doctors and
shifts vectors uniquely whenever the ordering keys are total on the result:
distinct (last_name, first_name) pairs for the active doctors, and distinct
(date, shift_type) pairs for the shifts of the month (the latter guaranteed by
the unique constraint of the table). With equal doctor name keys the order of
ties is not determined — see the counterexample. -/
theorem c9_snapshot_queries_deterministic (m y : Nat) (p : Persist)
    (hdk : (p.doctors.filter (fun d => d.active)).Pairwise
      (fun a b => a.lastName ≠ b.lastName ∨ a.firstName ≠ b.firstName))
    (hsk : (p.shifts.filter (shiftInMonth y m)).Pairwise
      (fun a b => a.date ≠ b.date ∨ a.shiftType ≠ b.shiftType))
    {s1 s2 : Snapshot} (h1 : snapshotQueries m y p s1) (h2 : snapshotQueries m y p s2) :
    s1.doctors = s2.doctors ∧ s1.shifts = s2.shifts :=
  ⟨doctors_query_unique p hdk h1.1 h2.1, shifts_query_unique m y p hsk h1.2 h2.2⟩

/-- C9 counterexample: two active doctors sharing the Meta ordering key
(last_name, first_name) admit two distinct snapshots, both consistent with
the ordered queries — repeated snapshot calls are not guaranteed to return
identical doctor orderings. -/
theorem c9_snapshot_order_not_determined :
    snapshotQueries 1 2025 pDup snapDup1 ∧ snapshotQueries 1 2025 pDup snapDup2 ∧
    snapDup1.doctors ≠ snapDup2.doctors := by
  refine ⟨⟨⟨?_, ?_⟩, ⟨?_, ?_⟩⟩, ⟨⟨?_, ?_⟩, ⟨?_, ?_⟩⟩, ?_⟩
  · exact List.Perm.refl _
  · refine List.pairwise_cons.mpr ⟨?_, List.pairwise_singleton _ _⟩
    intro b hb
    rw [List.mem_singleton] at hb
    subst hb
    exact Or.inr ⟨rfl, le_refl _⟩
  · exact List.Perm.refl _
  · exact List.Pairwise.nil
  · exact List.Perm.swap docD1 docD2 []
  · refine List.pairwise_cons.mpr ⟨?_, List.pairwise_singleton _ _⟩
    intro b hb
    rw [List.mem_singleton] at hb
    subst hb
    exact Or.inr ⟨rfl, le_refl _⟩
  · exact List.Perm.refl _
  · exact List.Pairwise.nil
  · intro h
    have h01 : snapDup1.doctors = [docD1, docD2] := rfl
    have h02 : snapDup2.doctors = [docD2, docD1] := rfl
    rw [h01, h02] at h
    injection h with hh _
    exact absurd (congrArg DoctorRow.id hh) (by decide)

/-- C9 witness: with pairwise-distinct name keys the determinism theorem
applies at a concrete state. -/
theorem c9_witness :
    (pDis.doctors.filter (fun d => d.active)).Pairwise
      (fun a b => a.lastName ≠ b.lastName ∨ a.firstName ≠ b.firstName) ∧
    snapshotQueries 1 2025 pDis snapDis ∧
    (snapDis.doctors = snapDis.doctors ∧ snapDis.shifts = snapDis.shifts) := by
  have hq : snapshotQueries 1 2025 pDis snapDis :=
    ⟨⟨List.Perm.refl _, List.pairwise_singleton _ _⟩,
      ⟨List.Perm.refl _, List.Pairwise.nil⟩⟩
  exact ⟨List.pairwise_singleton _ _, hq,
    c9_snapshot_queries_deterministic 1 2025 pDis (List.pairwise_singleton _ _)
      List.Pairwise.nil hq hq⟩

/-- C10: every pair extracted from the solver valuation is in range for the
doctor and shift vectors of the snapshot — so get_doctor_by_index and
get_shift_by_index cannot index out of range during assignment creation —
and the extracted list has no duplicate (doctor, shift) pair. -/
theorem c10_extract_assignments_safe (snap : Snapshot) (v : Nat → Nat → Bool) :
    (∀ pr ∈ extractAssignments snap.doctors.length snap.shifts.length v,
      (snap.doctors.get? pr.1).isSome = true ∧ (snap.shifts.get? pr.2).isSome = true) ∧
    (extractAssignments snap.doctors.length snap.shifts.length v).Nodup := by
  constructor
  · intro pr hpr
    unfold extractAssignments at hpr
    rw [List.mem_flatMap] at hpr
    obtain ⟨d, hd, hpr2⟩ := hpr
    rw [List.mem_filterMap] at hpr2
    obtain ⟨s, hs, hif⟩ := hpr2
    have hpr_eq : pr = (d, s) := by
      by_cases hv : v d s
      · rw [if_pos hv] at hif
        exact (Option.some.inj hif).symm
      · rw [if_neg hv] at hif
        exact absurd hif (by simp)
    subst hpr_eq
    rw [List.mem_range] at hd hs
    constructor
    · rw [List.get?_eq_get hd]
      rfl
    · rw [List.get?_eq_get hs]
      rfl
  · unfold extractAssignments
    rw [List.nodup_flatMap]
    constructor
    · intro d _
      apply List.Nodup.filterMap ?_ (List.nodup_range _)
      intro a a' b hb hb'
      have ha : ((d, a) : Nat × Nat) = b := by
        by_cases hva : v d a
        · rw [if_pos hva] at hb
          simpa using hb
        · rw [if_neg hva] at hb
          exact absurd hb (by simp)
      have ha' : ((d, a') : Nat × Nat) = b := by
        by_cases hva' : v d a'
        · rw [if_pos hva'] at hb'
          simpa using hb'
        · rw [if_neg hva'] at hb'
          exact absurd hb' (by simp)
      have hpq : ((d, a) : Nat × Nat) = (d, a') := ha.trans ha'.symm
      exact (Prod.mk.injEq _ _ _ _ ▸ hpq).2
    · have hne : (List.range snap.doctors.length).Pairwise (fun a b => a ≠ b) :=
        List.nodup_range _
      apply List.Pairwise.imp ?_ hne
      intro a b hab x hxa hxb
      rw [List.mem_filterMap] at hxa hxb
      obtain ⟨s1, _, hif1⟩ := hxa
      obtain ⟨s2, _, hif2⟩ := hxb
      have h1 : x.1 = a := by
        by_cases hv1 : v a s1
        · rw [if_pos hv1] at hif1
          rw [← Option.some.inj hif1]
        · rw [if_neg hv1] at hif1
          exact absurd hif1 (by simp)
      have h2 : x.1 = b := by
        by_cases hv2 : v b s2
        · rw [if_pos hv2] at hif2
          rw [← Option.some.inj hif2]
        · rw [if_neg hv2] at hif2
          exact absurd hif2 (by simp)
      exact hab (h1 ▸ h2)

/-- C10 witness: a total valuation over a one-doctor, one-shift snapshot. -/
theorem c10_witness :
    ((0, 0) ∈ extractAssignments snapC10.doctors.length snapC10.shifts.length
      (fun _ _ => true)) ∧
    (snapC10.doctors.get? 0).isSome = true ∧ (snapC10.shifts.get? 0).isSome = true ∧
    (extractAssignments snapC10.doctors.length snapC10.shifts.length
      (fun _ _ => true)).Nodup :=
  ⟨by decide,
    ((c10_extract_assignments_safe snapC10 (fun _ _ => true)).1 (0, 0) (by decide)).1,
    ((c10_extract_assignments_safe snapC10 (fun _ _ => true)).1 (0, 0) (by decide)).2,
    (c10_extract_assignments_safe snapC10 (fun _ _ => true)).2⟩
